import Mathlib

set_option maxHeartbeats 1000000

/-!
Shallow embedding of `src/subapis/peripheral.py`.

The embedded pieces are the remote-proxy model (`BasePeripheral._method`,
the `TYPE_MAP` registry with `registerType`, `wrap`,
`CCWiredModem.wrapRemote`) and the modem channel-subscription generator
(`ModemMixin.receive`), the latter as a small-step machine over the Python
generator protocol (next / close / throw), with the `try`/`finally`
structure of the source reflected in which transitions issue the
close-channel request.

Remote responses (decoded results of remote calls) are inputs to the
embedded functions; every issued remote-evaluation request is recorded in
an explicit trace, so that call-count and call-shape properties can be
stated.  The remote transport (`eval_lua` from the `sess` module), the
result decoder and the event environment (`captureEvent` from the `os`
module) are external collaborators: their code is not under `src/`, so
they appear only as the request values the source hands to them and the
response/event values they hand back.
-/

/-- Values passed to or received from the remote host: encoded strings or
byte strings, numbers, and booleans.  Event payloads are drawn from the
same type. -/
inductive Val
  | str (s : String)
  | num (n : Int)
  | bool (b : Bool)
deriving DecidableEq

/-- One remote-evaluation request: the code string handed to the transport
together with its positional arguments, as in `eval_lua(code, *args)`. -/
structure EvalReq where
  code : String
  args : List Val
deriving DecidableEq

/-- Device handle stored by `BasePeripheral.__init__`: the target
expression `lua_method_expr` and the `prepend_params` supplied before the
caller's own arguments on every call.  Every registered proxy class
inherits this constructor unchanged, so a constructed proxy is a class tag
paired with a handle. -/
structure BasePeripheral where
  lua_method_expr : String
  prepend_params : List Val
deriving DecidableEq

/-- `BasePeripheral._method(name, *params)`: builds the single request
`eval_lua('return ' + self._lua_method_expr + '(...)',
*self._prepend_params, ser.encode(name), *params)`. -/
def BasePeripheral._method (p : BasePeripheral) (name : String) (params : List Val) : EvalReq :=
  ⟨"return " ++ p.lua_method_expr ++ "(...)", p.prepend_params ++ [Val.str name] ++ params⟩

/-- Tags for the proxy classes defined in the source.  Construction of any
of them stores the handle verbatim (none overrides `__init__`), so a proxy
instance is represented as a tag together with its `BasePeripheral`
handle. -/
inductive PClass
  | CCDrive
  | CCMonitor
  | CCComputer
  | CCTurtle
  | CCPrinter
  | CCSpeaker
  | CCCommandBlock
  | CCWorkbench
  | CCWebDisplay
  | CCNBTObserver
  | CC3dProjector
  | CCManipulator
  | CCInventory
  | CCWirelessModem
  | CCWiredModem
deriving DecidableEq

/-- Errors surfaced by the embedded operations.  `keyError k` is the
Python `KeyError` raised by the lookup `TYPE_MAP[ptype]` when `ptype` is
not registered. -/
inductive PError
  | keyError (key : String)
deriving DecidableEq

/-- A registry state: the Python dict `TYPE_MAP` modelled as a map from
kind strings to class tags. -/
def Registry : Type := String → Option PClass

/-- `registerType(ptype, pcls)`: the dict update `TYPE_MAP[ptype] = pcls`. -/
def registerType (typeMap : Registry) (ptype : String) (pcls : PClass) : Registry :=
  fun k => if k = ptype then some pcls else typeMap k

/-- Registry resolution as performed at the call sites
`TYPE_MAP[ptype](...)` in `wrap` and `wrapRemote`: look the kind up
(raising `KeyError` when absent) and construct the proxy, which stores the
given handle verbatim via `BasePeripheral.__init__`. -/
def resolve (typeMap : Registry) (kind : String) (h : BasePeripheral) :
    Except PError (PClass × BasePeripheral) :=
  match typeMap kind with
  | none => .error (.keyError kind)
  | some cls => .ok (cls, h)

/-- Modelled from the spec: the helper `method =
eval_lua_method_factory('peripheral.')` comes from the `sess` module,
which is not under `src/`; per the spec it builds one remote-evaluation
request invoking the named operation of the peripheral API with the given
positional arguments. -/
def peripheralMethod (name : String) (params : List Val) : EvalReq :=
  ⟨"peripheral." ++ name, params⟩

/-- Request issued by `getType(side)`: `method('getType', ser.encode(side))`. -/
def getTypeReq (side : String) : EvalReq :=
  peripheralMethod "getType" [Val.str side]

/-- Request issued by the wireless check in `wrap`:
`method('call', side, b'isWireless')`. -/
def isWirelessCheckReq (side : String) : EvalReq :=
  peripheralMethod "call" [Val.str side, Val.str "isWireless"]

/-- `wrap(side)`, with the decoded remote responses as inputs:
`ptypeResp` is the optional kind string returned by `getType(side)` and
`isWirelessResp` the boolean returned by the wireless check (consulted
only on the `'modem'` branch).  Returns the outcome together with the
trace of remote requests issued. -/
def wrap (typeMap : Registry) (side : String) (ptypeResp : Option String)
    (isWirelessResp : Bool) :
    Except PError (Option (PClass × BasePeripheral)) × List EvalReq :=
  match ptypeResp with
  | none => (.ok none, [getTypeReq side])
  | some ptype =>
    if ptype = "modem" then
      if isWirelessResp then
        (.ok (some (.CCWirelessModem, ⟨"peripheral.call", [Val.str side]⟩)),
          [getTypeReq side, isWirelessCheckReq side])
      else
        (.ok (some (.CCWiredModem, ⟨"peripheral.call", [Val.str side]⟩)),
          [getTypeReq side, isWirelessCheckReq side])
    else
      match resolve typeMap ptype ⟨"peripheral.call", [Val.str side]⟩ with
      | .error e => (.error e, [getTypeReq side])
      | .ok pr => (.ok (some pr), [getTypeReq side])

/-- Request issued by `getTypeRemote(peripheralName)` on a wired modem
proxy: `self._method('getTypeRemote', ser.encode(peripheralName))`. -/
def getTypeRemoteReq (p : BasePeripheral) (peripheralName : String) : EvalReq :=
  p._method "getTypeRemote" [Val.str peripheralName]

/-- `CCWiredModem.wrapRemote(peripheralName)`, with the decoded response
of `getTypeRemote` as input `ptypeResp`.  On a reported kind, looks the
kind up in `TYPE_MAP` (a `KeyError` when absent) and constructs the proxy
with the same target expression and the prepended parameters extended by
`b'callRemote'` and the encoded far-side name. -/
def CCWiredModem.wrapRemote (typeMap : Registry) (p : BasePeripheral)
    (peripheralName : String) (ptypeResp : Option String) :
    Except PError (Option (PClass × BasePeripheral)) × List EvalReq :=
  match ptypeResp with
  | none => (.ok none, [getTypeRemoteReq p peripheralName])
  | some ptype =>
    match resolve typeMap ptype
        ⟨p.lua_method_expr,
          p.prepend_params ++ [Val.str "callRemote", Val.str peripheralName]⟩ with
    | .error e => (.error e, [getTypeRemoteReq p peripheralName])
    | .ok pr => (.ok (some pr), [getTypeRemoteReq p peripheralName])

/-- The twelve explicit `registerType` calls at module load, in source
order. -/
def builtinRegistrations : List (String × PClass) :=
  [("drive", .CCDrive), ("monitor", .CCMonitor), ("computer", .CCComputer),
   ("turtle", .CCTurtle), ("printer", .CCPrinter), ("speaker", .CCSpeaker),
   ("command", .CCCommandBlock), ("workbench", .CCWorkbench),
   ("webdisplays", .CCWebDisplay), ("NBT_Observer", .CCNBTObserver),
   ("3d_projector", .CC3dProjector), ("manipulator", .CCManipulator)]

/-- The ten names registered with the `'minecraft:'` prefix for
`CCInventory` by the loop at module load, in source order. -/
def inventoryKinds : List String :=
  ["chest", "furnace", "barrel", "hopper", "dropper", "dispenser",
   "blast_furnace", "smoker", "shulker_box", "brewing_stand"]

/-- The registry as initialized at module load: `TYPE_MAP = {}` followed by
the twelve explicit `registerType` calls and the `'minecraft:'` loop. -/
def TYPE_MAP : Registry :=
  List.foldl (fun m k => registerType m ("minecraft:" ++ k) PClass.CCInventory)
    (List.foldl (fun m r => registerType m r.1 r.2) (fun _ => none) builtinRegistrations)
    inventoryKinds

/-- The kind strings registered at module load (the twelve explicit ones
followed by the prefixed inventory kinds). -/
def builtinKinds : List String :=
  builtinRegistrations.map Prod.fst ++ inventoryKinds.map (fun k => "minecraft:" ++ k)

/-- Inbound `modem_message` event as delivered by the event environment:
originating side, target channel, reply channel, payload, distance. -/
structure ModemEvent where
  side : Val
  channel : Int
  replyChannel : Int
  content : Val
  distance : Int
deriving DecidableEq

/-- Typed message dataclass `ModemMessage(reply_channel, content, distance)`. -/
structure ModemMessage where
  reply_channel : Int
  content : Val
  distance : Int
deriving DecidableEq

/-- `ModemMixin._side`: the source reads `self._prepend_params[0]`; modem
proxies always carry the side as their first prepended parameter, so the
default for an empty list is never reached on proxies the source builds. -/
def ModemMixin._side (p : BasePeripheral) : Val :=
  p.prepend_params.headD (Val.str "")

/-- Request issued by `ModemMixin.isOpen(channel)`. -/
def ModemMixin.isOpenCall (p : BasePeripheral) (channel : Int) : EvalReq :=
  p._method "isOpen" [Val.num channel]

/-- Request issued by `ModemMixin.open(channel)`. -/
def ModemMixin.openCall (p : BasePeripheral) (channel : Int) : EvalReq :=
  p._method "open" [Val.num channel]

/-- Request issued by `ModemMixin.close(channel)`. -/
def ModemMixin.closeCall (p : BasePeripheral) (channel : Int) : EvalReq :=
  p._method "close" [Val.num channel]

/-- The filtering loop of `receive`: skip events whose `evt[0]` differs
from `self._side` or whose `evt[1]` differs from `channel`; on the first
kept event return `ModemMessage(*evt[2:])` with the remaining stream. -/
def scanEvents (side : Val) (channel : Int) :
    List ModemEvent → Option (ModemMessage × List ModemEvent)
  | [] => none
  | evt :: rest =>
    if evt.side ≠ side then scanEvents side channel rest
    else if evt.channel ≠ channel then scanEvents side channel rest
    else some (⟨evt.replyChannel, evt.content, evt.distance⟩, rest)

/-- Consumer actions of the Python generator protocol on the generator
returned by `receive`: advance (`next`), abandon (`close`, also what
garbage collection performs), or throw an exception in at the suspension
point. -/
inductive GenAction
  | next
  | abandon
  | throwErr
deriving DecidableEq

/-- Phase of the generator returned by `receive(channel)`: built but not
yet started (the body of a generator function does not run at call time),
suspended inside the `for` loop after a successful open, or finished
(completed, closed, or raised). -/
inductive GenPhase
  | created (events : List ModemEvent)
  | delivering (events : List ModemEvent)
  | finished
deriving DecidableEq

/-- Observable result of one protocol action. -/
inductive StepResult
  | yielded (m : ModemMessage)
  | stopped
  | error (msg : String)
  | closedGen
deriving DecidableEq

/-- One step of the generator protocol for `receive`, faithful to the
source body and to Python generator semantics: the first `next` runs the
busy check (`raise Exception('Channel is busy')` before the `try`, so no
cleanup), then `open` and the filtering loop; inside the `try`, stream
exhaustion, `close`/GC and `throw` all leave through the `finally`, which
issues the close-channel request; a not-yet-started generator that is
closed or thrown into never runs its body, hence issues no request.
`busyResp` is the decoded response of the `isOpen` busy check. -/
def genStep (busyResp : Bool) (p : BasePeripheral) (channel : Int) :
    GenPhase → GenAction → GenPhase × List EvalReq × StepResult
  | .created events, .next =>
    if busyResp then
      (.finished, [ModemMixin.isOpenCall p channel], .error "Channel is busy")
    else
      match scanEvents (ModemMixin._side p) channel events with
      | some (msg, rest) =>
        (.delivering rest,
          [ModemMixin.isOpenCall p channel, ModemMixin.openCall p channel], .yielded msg)
      | none =>
        (.finished,
          [ModemMixin.isOpenCall p channel, ModemMixin.openCall p channel,
            ModemMixin.closeCall p channel], .stopped)
  | .created _, .abandon => (.finished, [], .closedGen)
  | .created _, .throwErr => (.finished, [], .error "thrown")
  | .delivering events, .next =>
    match scanEvents (ModemMixin._side p) channel events with
    | some (msg, rest) => (.delivering rest, [], .yielded msg)
    | none => (.finished, [ModemMixin.closeCall p channel], .stopped)
  | .delivering _, .abandon => (.finished, [ModemMixin.closeCall p channel], .closedGen)
  | .delivering _, .throwErr => (.finished, [ModemMixin.closeCall p channel], .error "thrown")
  | .finished, .next => (.finished, [], .stopped)
  | .finished, .abandon => (.finished, [], .closedGen)
  | .finished, .throwErr => (.finished, [], .error "thrown")

/-- Accumulated observation of a run of the generator protocol: the trace
of issued remote requests, the messages delivered to the consumer, and the
final phase. -/
structure RunOut where
  trace : List EvalReq
  msgs : List ModemMessage
  final : GenPhase
deriving DecidableEq

/-- Drive the generator of `receive` through a sequence of protocol
actions, accumulating the issued requests and delivered messages. -/
def runGen (busyResp : Bool) (p : BasePeripheral) (channel : Int) :
    GenPhase → List GenAction → RunOut
  | ph, [] => ⟨[], [], ph⟩
  | ph, a :: rest =>
    match genStep busyResp p channel ph a with
    | (ph2, calls, res) =>
      let out := runGen busyResp p channel ph2 rest
      ⟨calls ++ out.trace,
        (match res with | .yielded m => m :: out.msgs | _ => out.msgs),
        out.final⟩

/-- C6: resolving a registered kind K with handle H yields a proxy bound to
H unmodified, and every operation on it issues exactly one remote request
whose target expression is H's target expression and whose argument list is
H's prepended arguments, then the operation name, then the caller's own
arguments, in that order. -/
theorem resolve_method_request (typeMap : Registry) (k : String) (cls : PClass)
    (h : BasePeripheral) (hreg : typeMap k = some cls) :
    resolve typeMap k h = .ok (cls, h) ∧
    ∀ (name : String) (args : List Val),
      BasePeripheral._method h name args =
        ⟨"return " ++ h.lua_method_expr ++ "(...)",
          h.prepend_params ++ [Val.str name] ++ args⟩ := by
  refine ⟨?_, fun name args => rfl⟩
  simp [resolve, hreg]

theorem resolve_method_request_witness :
    resolve TYPE_MAP "drive" ⟨"peripheral.call", [Val.str "left"]⟩ =
      .ok (.CCDrive, ⟨"peripheral.call", [Val.str "left"]⟩) :=
  (resolve_method_request TYPE_MAP "drive" .CCDrive
    ⟨"peripheral.call", [Val.str "left"]⟩ (by decide)).1

/-- C8: registration is an idempotent overwrite keyed by kind: after two
registrations under K the second constructor wins at resolution, the
association under K is single-valued, registering the same constructor
twice equals registering it once, and kinds other than K are untouched. -/
theorem registerType_idempotent_overwrite (typeMap : Registry) (K : String)
    (c1 c2 : PClass) (h : BasePeripheral) :
    resolve (registerType (registerType typeMap K c1) K c2) K h = .ok (c2, h) ∧
    (registerType (registerType typeMap K c1) K c2) K = some c2 ∧
    registerType (registerType typeMap K c2) K c2 = registerType typeMap K c2 ∧
    ∀ k, k ≠ K → (registerType (registerType typeMap K c1) K c2) k = typeMap k := by
  refine ⟨?_, ?_, ?_, ?_⟩
  · simp [resolve, registerType]
  · simp [registerType]
  · funext k
    by_cases hk : k = K <;> simp [registerType, hk]
  · intro k hk
    simp [registerType, hk]

theorem registerType_idempotent_overwrite_witness :
    resolve (registerType (registerType TYPE_MAP "x" .CCDrive) "x" .CCMonitor) "x"
        ⟨"peripheral.call", []⟩ = .ok (.CCMonitor, ⟨"peripheral.call", []⟩) ∧
    (registerType (registerType TYPE_MAP "x" .CCDrive) "x" .CCMonitor) "drive" =
      TYPE_MAP "drive" :=
  ⟨(registerType_idempotent_overwrite TYPE_MAP "x" .CCDrive .CCMonitor
      ⟨"peripheral.call", []⟩).1,
    (registerType_idempotent_overwrite TYPE_MAP "x" .CCDrive .CCMonitor
      ⟨"peripheral.call", []⟩).2.2.2 "drive" (by decide)⟩

/-- C4: forwarding through a wired modem with handle H to far-side name N:
when the far-side kind query reports a registered kind, the returned proxy
keeps H's target expression unchanged and has H's prepended arguments
extended by exactly the forwarding marker and N; when no kind is reported,
absence is returned. -/
theorem wrapRemote_composition (typeMap : Registry) (p : BasePeripheral)
    (peripheralName k : String) (cls : PClass) (hreg : typeMap k = some cls) :
    (CCWiredModem.wrapRemote typeMap p peripheralName (some k)).1 =
      .ok (some (cls,
        ⟨p.lua_method_expr,
          p.prepend_params ++ [Val.str "callRemote", Val.str peripheralName]⟩)) ∧
    (CCWiredModem.wrapRemote typeMap p peripheralName none).1 = .ok none := by
  constructor
  · simp [CCWiredModem.wrapRemote, resolve, hreg]
  · rfl

theorem wrapRemote_composition_witness :
    (CCWiredModem.wrapRemote TYPE_MAP ⟨"peripheral.call", [Val.str "back"]⟩
        "furnace_0" (some "minecraft:furnace")).1 =
      .ok (some (.CCInventory,
        ⟨"peripheral.call",
          [Val.str "back", Val.str "callRemote", Val.str "furnace_0"]⟩)) :=
  (wrapRemote_composition TYPE_MAP ⟨"peripheral.call", [Val.str "back"]⟩
    "furnace_0" "minecraft:furnace" .CCInventory (by decide)).1

/-- C7: a reported kind with no registered constructor fails with the
unknown-kind lookup error both in discovery and in forwarding, an outcome
distinct from the absence result returned when no kind is reported. -/
theorem unknown_kind_error (typeMap : Registry) (side peripheralName k : String)
    (p : BasePeripheral) (w : Bool) (habs : typeMap k = none) (hmod : k ≠ "modem") :
    (wrap typeMap side (some k) w).1 = .error (.keyError k) ∧
    (CCWiredModem.wrapRemote typeMap p peripheralName (some k)).1 =
      .error (.keyError k) ∧
    (wrap typeMap side none w).1 = .ok none ∧
    (Except.error (PError.keyError k) :
      Except PError (Option (PClass × BasePeripheral))) ≠ .ok none := by
  refine ⟨?_, ?_, rfl, by simp⟩
  · simp [wrap, resolve, habs, hmod]
  · simp [CCWiredModem.wrapRemote, resolve, habs]

theorem unknown_kind_error_witness :
    (wrap TYPE_MAP "left" (some "bogus_kind") true).1 =
      .error (.keyError "bogus_kind") ∧
    (CCWiredModem.wrapRemote TYPE_MAP ⟨"peripheral.call", [Val.str "back"]⟩
        "dev_0" (some "bogus_kind")).1 = .error (.keyError "bogus_kind") :=
  ⟨(unknown_kind_error TYPE_MAP "left" "dev_0" "bogus_kind"
      ⟨"peripheral.call", [Val.str "back"]⟩ true (by decide) (by decide)).1,
    (unknown_kind_error TYPE_MAP "left" "dev_0" "bogus_kind"
      ⟨"peripheral.call", [Val.str "back"]⟩ true (by decide) (by decide)).2.1⟩

/-- C5: the discovery protocol of `wrap(side)`: no reported kind yields
absence after only the kind query; the kind "modem" triggers exactly one
extra remote call (the wireless check), picks the wireless or wired
specialization from its boolean answer, and bypasses the registry (the
outcome does not depend on it); any other registered kind resolves through
the registry with no extra call. -/
theorem wrap_discovery_protocol (typeMap : Registry) (side : String) (w : Bool) :
    wrap typeMap side none w = (.ok none, [getTypeReq side]) ∧
    (wrap typeMap side (some "modem") true).1 =
      .ok (some (.CCWirelessModem, ⟨"peripheral.call", [Val.str side]⟩)) ∧
    (wrap typeMap side (some "modem") false).1 =
      .ok (some (.CCWiredModem, ⟨"peripheral.call", [Val.str side]⟩)) ∧
    (wrap typeMap side (some "modem") w).2 =
      [getTypeReq side, isWirelessCheckReq side] ∧
    (∀ typeMap2 : Registry,
      wrap typeMap side (some "modem") w = wrap typeMap2 side (some "modem") w) ∧
    ∀ (k : String) (cls : PClass), k ≠ "modem" → typeMap k = some cls →
      wrap typeMap side (some k) w =
        (.ok (some (cls, ⟨"peripheral.call", [Val.str side]⟩)), [getTypeReq side]) := by
  refine ⟨rfl, rfl, rfl, ?_, ?_, ?_⟩
  · cases w <;> rfl
  · intro typeMap2
    cases w <;> rfl
  · intro k cls hk hreg
    simp [wrap, resolve, hk, hreg]

theorem wrap_discovery_protocol_witness :
    wrap TYPE_MAP "left" (some "drive") true =
      (.ok (some (.CCDrive, ⟨"peripheral.call", [Val.str "left"]⟩)),
        [getTypeReq "left"]) :=
  (wrap_discovery_protocol TYPE_MAP "left" true).2.2.2.2.2 "drive" .CCDrive
    (by decide) (by decide)

theorem registerType_isSome (m : Registry) (t : String) (c : PClass) (k : String) :
    ((registerType m t c) k).isSome ↔ k = t ∨ (m k).isSome := by
  by_cases hk : k = t <;> simp [registerType, hk]

theorem foldl_registerPairs_isSome (rs : List (String × PClass)) :
    ∀ (m : Registry) (k : String),
      ((List.foldl (fun m r => registerType m r.1 r.2) m rs) k).isSome ↔
        (∃ r ∈ rs, k = r.1) ∨ (m k).isSome := by
  induction rs with
  | nil => intro m k; simp
  | cons r rest ih =>
    intro m k
    rw [List.foldl_cons, ih, registerType_isSome]
    constructor
    · rintro (⟨r2, hr2, hk⟩ | hk | hm)
      · exact .inl ⟨r2, .tail _ hr2, hk⟩
      · exact .inl ⟨r, .head _, hk⟩
      · exact .inr hm
    · rintro (⟨r2, hr2, hk⟩ | hm)
      · rcases List.mem_cons.mp hr2 with h | h
        · exact .inr (.inl (h ▸ hk))
        · exact .inl ⟨r2, h, hk⟩
      · exact .inr (.inr hm)

theorem foldl_registerInventory_isSome (ks : List String) :
    ∀ (m : Registry) (k : String),
      ((List.foldl (fun m k2 => registerType m ("minecraft:" ++ k2) PClass.CCInventory)
          m ks) k).isSome ↔
        (∃ k2 ∈ ks, k = "minecraft:" ++ k2) ∨ (m k).isSome := by
  induction ks with
  | nil => intro m k; simp
  | cons k0 rest ih =>
    intro m k
    rw [List.foldl_cons, ih, registerType_isSome]
    constructor
    · rintro (⟨k2, hk2, hk⟩ | hk | hm)
      · exact .inl ⟨k2, .tail _ hk2, hk⟩
      · exact .inl ⟨k0, .head _, hk⟩
      · exact .inr hm
    · rintro (⟨k2, hk2, hk⟩ | hm)
      · rcases List.mem_cons.mp hk2 with h | h
        · exact .inr (.inl (h ▸ hk))
        · exact .inl ⟨k2, h, hk⟩
      · exact .inr (.inr hm)

theorem foldl_registerInventory_lookup (ks : List String) :
    ∀ (m : Registry) (key : String),
      (List.foldl (fun m k2 => registerType m ("minecraft:" ++ k2) PClass.CCInventory)
          m ks) key =
        if ∃ k2 ∈ ks, key = "minecraft:" ++ k2 then some PClass.CCInventory else m key := by
  induction ks with
  | nil => intro m key; simp
  | cons k0 rest ih =>
    intro m key
    rw [List.foldl_cons, ih]
    by_cases hrest : ∃ k2 ∈ rest, key = "minecraft:" ++ k2
    · obtain ⟨k2, h1, h2⟩ := hrest
      rw [if_pos ⟨k2, h1, h2⟩, if_pos ⟨k2, .tail _ h1, h2⟩]
    · rw [if_neg hrest]
      by_cases hk0 : key = "minecraft:" ++ k0
      · rw [if_pos ⟨k0, .head _, hk0⟩]
        simp [registerType, hk0]
      · have hnc : ¬ ∃ k2 ∈ k0 :: rest, key = "minecraft:" ++ k2 := by
          rintro ⟨k2, h1, h2⟩
          rcases List.mem_cons.mp h1 with h | h
          · exact hk0 (h ▸ h2)
          · exact hrest ⟨k2, h, h2⟩
        rw [if_neg hnc]
        simp [registerType, hk0]

/-- C10: the registry built at module load maps exactly the twelve
explicitly registered kinds and the ten prefixed inventory kinds (the
latter all to the inventory proxy class), never the kind "modem";
consequently forwarding to a far-side device reported as "modem" fails
with the unknown-kind lookup error instead of constructing a modem
proxy. -/
theorem builtin_type_map_domain :
    (∀ k, (TYPE_MAP k).isSome ↔ k ∈ builtinKinds) ∧
    TYPE_MAP "modem" = none ∧
    (∀ k, k ∈ inventoryKinds → TYPE_MAP ("minecraft:" ++ k) = some .CCInventory) ∧
    ∀ (p : BasePeripheral) (peripheralName : String),
      (CCWiredModem.wrapRemote TYPE_MAP p peripheralName (some "modem")).1 =
        .error (.keyError "modem") := by
  have hdom : ∀ k, (TYPE_MAP k).isSome ↔ k ∈ builtinKinds := by
    intro k
    rw [TYPE_MAP, foldl_registerInventory_isSome, foldl_registerPairs_isSome]
    simp only [Option.isSome_none, Bool.false_eq_true, or_false, builtinKinds,
      List.mem_append, List.mem_map]
    constructor
    · rintro (⟨k2, hk2, hk⟩ | ⟨r, hr, hk⟩)
      · exact .inr ⟨k2, hk2, hk.symm⟩
      · exact .inl ⟨r, hr, hk.symm⟩
    · rintro (⟨r, hr, hk⟩ | ⟨k2, hk2, hk⟩)
      · exact .inr ⟨r, hr, hk.symm⟩
      · exact .inl ⟨k2, hk2, hk.symm⟩
  have hmodem : TYPE_MAP "modem" = none := by
    have := hdom "modem"
    rw [← Option.not_isSome_iff_eq_none]
    intro hsome
    have hmem := this.mp hsome
    revert hmem
    decide
  refine ⟨hdom, hmodem, ?_, ?_⟩
  · intro k hk
    rw [TYPE_MAP, foldl_registerInventory_lookup, if_pos ⟨k, hk, rfl⟩]
  · intro p peripheralName
    simp [CCWiredModem.wrapRemote, resolve, hmodem]

theorem builtin_type_map_domain_witness :
    TYPE_MAP "minecraft:chest" = some .CCInventory :=
  builtin_type_map_domain.2.2.1 "chest" (by decide)

theorem runGen_finished (b : Bool) (p : BasePeripheral) (ch : Int)
    (acts : List GenAction) :
    runGen b p ch .finished acts = ⟨[], [], .finished⟩ := by
  induction acts with
  | nil => rfl
  | cons a rest ih => cases a <;> simp [runGen, genStep, ih]

theorem modemCalls_distinct (p : BasePeripheral) (ch : Int) :
    ModemMixin.closeCall p ch ≠ ModemMixin.isOpenCall p ch ∧
    ModemMixin.closeCall p ch ≠ ModemMixin.openCall p ch ∧
    ModemMixin.openCall p ch ≠ ModemMixin.isOpenCall p ch := by
  refine ⟨?_, ?_, ?_⟩ <;>
  · intro h
    have h2 := congrArg EvalReq.args h
    simp only [ModemMixin.closeCall, ModemMixin.isOpenCall, ModemMixin.openCall,
      BasePeripheral._method, List.append_assoc] at h2
    have h3 := List.append_cancel_left h2
    simp at h3

theorem runGen_delivering_count (b : Bool) (p : BasePeripheral) (ch : Int) :
    ∀ (acts : List GenAction) (evs : List ModemEvent),
      (runGen b p ch (.delivering evs) acts).trace.count (ModemMixin.closeCall p ch) =
        (if (runGen b p ch (.delivering evs) acts).final = .finished then 1 else 0) := by
  intro acts
  induction acts with
  | nil => intro evs; simp [runGen]
  | cons a rest ih =>
    intro evs
    cases a with
    | next =>
      cases hscan : scanEvents (ModemMixin._side p) ch evs with
      | none =>
        simp [runGen, genStep, hscan, runGen_finished, List.count_cons]
      | some pr =>
        obtain ⟨m, rest2⟩ := pr
        simp [runGen, genStep, hscan, ih rest2]
    | abandon =>
      simp [runGen, genStep, runGen_finished, List.count_cons]
    | throwErr =>
      simp [runGen, genStep, runGen_finished, List.count_cons]

/-- C1: whenever the open-channel call was issued by a subscription run
(the Reserved state was reached) and the run ends the generator, exactly
one close-channel call appears in the trace, regardless of whether the run
ends by stream exhaustion, by abandonment after any number of delivered
messages, or by an error thrown while delivering. -/
theorem receive_guaranteed_close (b : Bool) (p : BasePeripheral) (ch : Int)
    (evs : List ModemEvent) (acts : List GenAction)
    (hopen : ModemMixin.openCall p ch ∈ (runGen b p ch (.created evs) acts).trace)
    (hend : (runGen b p ch (.created evs) acts).final = .finished) :
    (runGen b p ch (.created evs) acts).trace.count (ModemMixin.closeCall p ch) = 1 := by
  obtain ⟨hci, hco, hoi⟩ := modemCalls_distinct p ch
  cases acts with
  | nil => simp [runGen] at hopen
  | cons a rest =>
    cases a with
    | abandon => simp [runGen, genStep, runGen_finished] at hopen
    | throwErr => simp [runGen, genStep, runGen_finished] at hopen
    | next =>
      cases b with
      | true =>
        simp [runGen, genStep, runGen_finished] at hopen
        exact absurd hopen hoi
      | false =>
        cases hscan : scanEvents (ModemMixin._side p) ch evs with
        | none =>
          simp [runGen, genStep, hscan, runGen_finished, List.count_cons, hci, hco]
        | some pr =>
          obtain ⟨m, rest2⟩ := pr
          have hfin : (runGen false p ch (.delivering rest2) rest).final = .finished := by
            simpa [runGen, genStep, hscan] using hend
          have hc := runGen_delivering_count false p ch rest rest2
          rw [hfin, if_pos rfl] at hc
          simp [runGen, genStep, hscan, List.count_cons, hci, hco, hc]

theorem receive_guaranteed_close_witness :
    ModemMixin.openCall ⟨"peripheral.call", [Val.str "left"]⟩ 1 ∈
      (runGen false ⟨"peripheral.call", [Val.str "left"]⟩ 1
        (.created [⟨Val.str "left", 1, 2, Val.str "hi", 7⟩])
        [.next, .abandon]).trace ∧
    (runGen false ⟨"peripheral.call", [Val.str "left"]⟩ 1
        (.created [⟨Val.str "left", 1, 2, Val.str "hi", 7⟩])
        [.next, .abandon]).final = .finished ∧
    (runGen false ⟨"peripheral.call", [Val.str "left"]⟩ 1
        (.created [⟨Val.str "left", 1, 2, Val.str "hi", 7⟩])
        [.next, .abandon]).trace.count
      (ModemMixin.closeCall ⟨"peripheral.call", [Val.str "left"]⟩ 1) = 1 :=
  ⟨by decide, by decide,
    receive_guaranteed_close false ⟨"peripheral.call", [Val.str "left"]⟩ 1
      [⟨Val.str "left", 1, 2, Val.str "hi", 7⟩] [.next, .abandon]
      (by decide) (by decide)⟩

/-- C2: when the busy-check status query reports the channel already open,
the first advance of the subscription raises the channel-busy usage error,
and the whole run issues only that read-only status query: in particular
no open-channel call and no close-channel call, so no remote state is
mutated before the error surfaces. -/
theorem receive_channel_busy (p : BasePeripheral) (ch : Int)
    (evs : List ModemEvent) (acts : List GenAction) :
    (runGen true p ch (.created evs) (.next :: acts)).trace =
      [ModemMixin.isOpenCall p ch] ∧
    (genStep true p ch (.created evs) .next).2.2 = .error "Channel is busy" ∧
    ModemMixin.openCall p ch ∉ (runGen true p ch (.created evs) (.next :: acts)).trace ∧
    ModemMixin.closeCall p ch ∉ (runGen true p ch (.created evs) (.next :: acts)).trace := by
  obtain ⟨hci, hco, hoi⟩ := modemCalls_distinct p ch
  have htr : (runGen true p ch (.created evs) (.next :: acts)).trace =
      [ModemMixin.isOpenCall p ch] := by
    simp [runGen, genStep, runGen_finished]
  refine ⟨htr, rfl, ?_, ?_⟩ <;> rw [htr] <;> simp_all

theorem scanEvents_none_nomatch (s : Val) (ch : Int) :
    ∀ evs : List ModemEvent, scanEvents s ch evs = none →
      ∀ e ∈ evs, e.side = s → ¬e.channel = ch := by
  intro evs
  induction evs with
  | nil => intro _ e he; cases he
  | cons e0 tl ih =>
    intro h e he
    by_cases h1 : e0.side = s
    · by_cases h2 : e0.channel = ch
      · simp [scanEvents, h1, h2] at h
      · simp [scanEvents, h1, h2] at h
        rcases List.mem_cons.mp he with rfl | he2
        · intro _
          exact h2
        · exact ih h e he2
    · simp [scanEvents, h1] at h
      rcases List.mem_cons.mp he with rfl | he2
      · intro hs
        exact absurd hs h1
      · exact ih h e he2

theorem scanEvents_some_filter (s : Val) (ch : Int) :
    ∀ (evs rest : List ModemEvent) (m : ModemMessage),
      scanEvents s ch evs = some (m, rest) →
      ((evs.filter (fun e => decide (e.side = s ∧ e.channel = ch))).map
          (fun e => ModemMessage.mk e.replyChannel e.content e.distance) =
        m :: (rest.filter (fun e => decide (e.side = s ∧ e.channel = ch))).map
          (fun e => ModemMessage.mk e.replyChannel e.content e.distance)) ∧
      rest.length < evs.length := by
  intro evs
  induction evs with
  | nil => intro rest m h; simp [scanEvents] at h
  | cons e tl ih =>
    intro rest m h
    by_cases h1 : e.side = s
    · by_cases h2 : e.channel = ch
      · simp [scanEvents, h1, h2] at h
        obtain ⟨hm, hr⟩ := h
        subst hm
        subst hr
        constructor
        · simp [List.filter_cons, h1, h2]
        · simp
      · simp [scanEvents, h1, h2] at h
        obtain ⟨hf, hl⟩ := ih rest m h
        constructor
        · simpa [List.filter_cons, h1, h2] using hf
        · exact Nat.lt_succ_of_lt hl
    · simp [scanEvents, h1] at h
      obtain ⟨hf, hl⟩ := ih rest m h
      constructor
      · simpa [List.filter_cons, h1] using hf
      · exact Nat.lt_succ_of_lt hl

theorem runGen_delivering_drain (p : BasePeripheral) (ch : Int) :
    ∀ (n : Nat) (evs : List ModemEvent), evs.length ≤ n →
      (runGen false p ch (.delivering evs) (List.replicate n .next)).msgs =
        (evs.filter (fun e => decide (e.side = ModemMixin._side p ∧ e.channel = ch))).map
          (fun e => ModemMessage.mk e.replyChannel e.content e.distance) := by
  intro n
  induction n with
  | zero =>
    intro evs hlen
    have h0 : evs = [] := List.length_eq_zero.mp (Nat.le_zero.mp hlen)
    subst h0
    simp [runGen]
  | succ n ih =>
    intro evs hlen
    rw [List.replicate_succ]
    cases hscan : scanEvents (ModemMixin._side p) ch evs with
    | none =>
      simp [runGen, genStep, hscan, runGen_finished]
      exact scanEvents_none_nomatch (ModemMixin._side p) ch evs hscan
    | some pr =>
      obtain ⟨m, rest⟩ := pr
      obtain ⟨hf, hl⟩ := scanEvents_some_filter (ModemMixin._side p) ch evs rest m hscan
      have hrec := ih rest (Nat.lt_succ_iff.mp (lt_of_lt_of_le hl hlen))
      simp [runGen, genStep, hscan, hrec]
      simp only [Bool.decide_and] at hf
      exact hf.symm

/-- C3: a subscription driven to exhaustion yields exactly the subsequence
of inbound events whose side equals the proxy's side and whose channel
equals the subscribed channel, in arrival order and with no others, each
kept event mapped to `ModemMessage(replyChannel, payload, distance)`. -/
theorem receive_filtering (p : BasePeripheral) (ch : Int) (evs : List ModemEvent) :
    (runGen false p ch (.created evs) (List.replicate (evs.length + 1) .next)).msgs =
      (evs.filter (fun e => decide (e.side = ModemMixin._side p ∧ e.channel = ch))).map
        (fun e => ModemMessage.mk e.replyChannel e.content e.distance) := by
  rw [List.replicate_succ]
  cases hscan : scanEvents (ModemMixin._side p) ch evs with
  | none =>
    simp [runGen, genStep, hscan, runGen_finished]
    exact scanEvents_none_nomatch (ModemMixin._side p) ch evs hscan
  | some pr =>
    obtain ⟨m, rest⟩ := pr
    obtain ⟨hf, hl⟩ := scanEvents_some_filter (ModemMixin._side p) ch evs rest m hscan
    have hrec := runGen_delivering_drain p ch evs.length rest (Nat.le_of_lt hl)
    simp [runGen, genStep, hscan, hrec]
    simp only [Bool.decide_and] at hf
    exact hf.symm

/-- C9: building the subscription generator performs no remote calls and
delivers no message; a run that never advances it, including abandoning or
throwing into the unstarted generator, issues no request at all, and in
any run that does advance it the first issued request is the busy-check
status query. -/
theorem receive_lazy_no_calls (b : Bool) (p : BasePeripheral) (ch : Int)
    (evs : List ModemEvent) :
    (runGen b p ch (.created evs) []).trace = [] ∧
    (runGen b p ch (.created evs) []).msgs = [] ∧
    (∀ acts, (runGen b p ch (.created evs) (.abandon :: acts)).trace = []) ∧
    (∀ acts, (runGen b p ch (.created evs) (.throwErr :: acts)).trace = []) ∧
    ∀ acts, ((runGen b p ch (.created evs) (.next :: acts)).trace).take 1 =
      [ModemMixin.isOpenCall p ch] := by
  refine ⟨rfl, rfl, ?_, ?_, ?_⟩
  · intro acts
    simp [runGen, genStep, runGen_finished]
  · intro acts
    simp [runGen, genStep, runGen_finished]
  · intro acts
    cases b with
    | true => simp [runGen, genStep, runGen_finished]
    | false =>
      cases hscan : scanEvents (ModemMixin._side p) ch evs with
      | none => simp [runGen, genStep, hscan]
      | some pr =>
        obtain ⟨m, rest⟩ := pr
        simp [runGen, genStep, hscan]
